import Mathlib

/-!
Shallow embedding of `src/python/log_parser/log_parser.py` (an Apache/Nginx
access-log parser and HTML report generator) together with proofs of the
specification claims about it.

The Python regex

  LOG_PATTERN =
    ^(?P<ip>\S+)\s+\S+\s+\S+\s+\[(?P<time>[^\]]+)\]\s+
    "(?P<method>\S+)\s+(?P<path>\S+)\s+(?P<proto>[^"]+)"\s+
    (?P<status>\d{3})\s+(?P<size>\S+)\s+
    "(?P<referer>[^"]*)"\s+"(?P<ua>[^"]*)"\s*$

is embedded as a deterministic maximal-munch scanner (`matchLog`).  This is
extensionally equal to the backtracking regex because every quantified
character class in the pattern is disjoint from the token that follows it:
`\S+` is always followed by `\s`, `[^\]]+` by `]`, `[^"]+`/`[^"]*` by `"`,
`\s+`/`\s*` by a non-space or end, and `\d{3}` is fixed-width; hence any
backtracked (shorter) match of a quantifier leaves a next character that the
quantifier's class still accepts and the follower rejects, so no backtracking
branch can succeed where the maximal munch fails.  Character classes are
modelled at their ASCII meaning (`\s` = the six ASCII whitespace characters,
`\d` = `0`..`9`), which is what the log grammar exercises.
-/

namespace LogParser

/-- ASCII meaning of the regex class `\s` (space, tab, newline, carriage
return, vertical tab, form feed). -/
def isSpc (c : Char) : Bool :=
  c = ' ' || c = '\t' || c = '\n' || c = '\r' || c = '\x0b' || c = '\x0c'

/-- Regex class `\S`: any non-whitespace character. -/
def nonSpc (c : Char) : Bool := !(isSpc c)

/-- Maximal munch of one or more characters satisfying `p` (regex `p+`):
returns the token and the remainder, or `none` if the first character
does not satisfy `p`. -/
def munch1 (p : Char → Bool) (l : List Char) : Option (List Char × List Char) :=
  if (l.takeWhile p).isEmpty then none else some (l.takeWhile p, l.dropWhile p)

/-- Maximal munch of zero or more characters satisfying `p` (regex `p*`). -/
def munch0 (p : Char → Bool) (l : List Char) : List Char × List Char :=
  (l.takeWhile p, l.dropWhile p)

/-- Consume one literal character. -/
def expectChar (c : Char) : List Char → Option (List Char)
  | [] => none
  | c' :: r => if c' = c then some r else none

/-- Regex `\d\x7b3\x7d`: exactly three decimal digits. -/
def digits3 : List Char → Option (List Char × List Char)
  | c1 :: c2 :: c3 :: r =>
      if c1.isDigit && c2.isDigit && c3.isDigit then some ([c1, c2, c3], r) else none
  | _ => none

/-- The raw capture groups of `LOG_PATTERN` (field names follow the
named groups of the Python regex). -/
structure RawMatch where
  ip : List Char
  time : List Char
  method : List Char
  path : List Char
  proto : List Char
  status : List Char
  size : List Char
  referer : List Char
  ua : List Char
  deriving DecidableEq, Repr

/-- Stage 1 of `LOG_PATTERN`: `^(?P<ip>\S+)\s+\S+\s+\S+\s+` (the client
address and the two ignored identity fields).  Returns the `ip` capture and
the remainder. -/
def matchStage1 (l0 : List Char) : Option (List Char × List Char) :=
  Option.bind (munch1 nonSpc l0) fun (ip, l) =>
  Option.bind (munch1 isSpc l) fun (_, l) =>
  Option.bind (munch1 nonSpc l) fun (_, l) =>
  Option.bind (munch1 isSpc l) fun (_, l) =>
  Option.bind (munch1 nonSpc l) fun (_, l) =>
  Option.bind (munch1 isSpc l) fun (_, l) =>
  some (ip, l)

/-- Stage 2: `\[(?P<time>[^\]]+)\]\s+` (the bracketed timestamp). -/
def matchStage2 (l0 : List Char) : Option (List Char × List Char) :=
  Option.bind (expectChar '[' l0) fun l =>
  Option.bind (munch1 (fun c => !(c = ']')) l) fun (time, l) =>
  Option.bind (expectChar ']' l) fun l =>
  Option.bind (munch1 isSpc l) fun (_, l) =>
  some (time, l)

/-- Stage 3: `"(?P<method>\S+)\s+(?P<path>\S+)\s+(?P<proto>[^"]+)"\s+`
(the quoted request line).  Returns method, path, protocol. -/
def matchStage3 (l0 : List Char) :
    Option (List Char × List Char × List Char × List Char) :=
  Option.bind (expectChar '"' l0) fun l =>
  Option.bind (munch1 nonSpc l) fun (method, l) =>
  Option.bind (munch1 isSpc l) fun (_, l) =>
  Option.bind (munch1 nonSpc l) fun (path, l) =>
  Option.bind (munch1 isSpc l) fun (_, l) =>
  Option.bind (munch1 (fun c => !(c = '"')) l) fun (proto, l) =>
  Option.bind (expectChar '"' l) fun l =>
  Option.bind (munch1 isSpc l) fun (_, l) =>
  some (method, path, proto, l)

/-- Stage 4: `(?P<status>\d\x7b3\x7d)\s+(?P<size>\S+)\s+` (status code and
size token). -/
def matchStage4 (l0 : List Char) :
    Option (List Char × List Char × List Char) :=
  Option.bind (digits3 l0) fun (status, l) =>
  Option.bind (munch1 isSpc l) fun (_, l) =>
  Option.bind (munch1 nonSpc l) fun (size, l) =>
  Option.bind (munch1 isSpc l) fun (_, l) =>
  some (status, size, l)

/-- Stage 5: `"(?P<referer>[^"]*)"\s+"(?P<ua>[^"]*)"\s*$` (the two quoted
trailing fields and the end anchor). -/
def matchStage5 (l0 : List Char) : Option (List Char × List Char) :=
  Option.bind (expectChar '"' l0) fun l =>
  (fun (referer, l) =>
    Option.bind (expectChar '"' l) fun l =>
    Option.bind (munch1 isSpc l) fun (_, l) =>
    Option.bind (expectChar '"' l) fun l =>
    (fun (ua, l) =>
      Option.bind (expectChar '"' l) fun l =>
      (fun (_, l) =>
        if l.isEmpty then some (referer, ua) else none)
      (munch0 isSpc l))
    (munch0 (fun c => !(c = '"')) l))
  (munch0 (fun c => !(c = '"')) l)

/-- Embedding of `LOG_PATTERN.match(line)` restricted to full-line matches
(the pattern is anchored with `^ ... \s*$`).  Returns the capture groups on
success. -/
def matchLog (l0 : List Char) : Option RawMatch :=
  Option.bind (matchStage1 l0) fun (ip, l) =>
  Option.bind (matchStage2 l) fun (time, l) =>
  Option.bind (matchStage3 l) fun (method, path, proto, l) =>
  Option.bind (matchStage4 l) fun (status, size, l) =>
  Option.bind (matchStage5 l) fun (referer, ua) =>
  some ⟨ip, time, method, path, proto, status, size, referer, ua⟩

/-- Digit-and-underscore scanner backing the embedding of Python `int`:
underscores are allowed only between digits (CPython base-10 grammar).
`prevDigit` records whether the previous character was a digit. -/
def pyIntDigitsGo : List Char → Bool → Nat → Option Nat
  | [], prevDigit, acc => if prevDigit then some acc else none
  | c :: cs, prevDigit, acc =>
      if c.isDigit then pyIntDigitsGo cs true (acc * 10 + (c.toNat - 48))
      else if c = '_' && prevDigit then pyIntDigitsGo cs false acc
      else none

/-- Unsigned part of Python `int(s)`. -/
def pyIntDigits (l : List Char) : Option Nat := pyIntDigitsGo l false 0

/-- Character-list form of Python `int(s)`: an optional sign followed by
digits with optional single underscores between digits (`Char.ofNat 45` is
the minus sign). -/
def parsePyIntList : List Char → Option Int
  | [] => none
  | c :: rest =>
      if c = Char.ofNat 45 then (pyIntDigits rest).map (fun n => -(n : Int))
      else if c = '+' then (pyIntDigits rest).map (fun n => (n : Int))
      else (pyIntDigits (c :: rest)).map (fun n => (n : Int))

/-- Embedding of Python `int(s)` on the ASCII strings the parser feeds it
(tokens matched by `\S+`, hence free of whitespace). -/
def parsePyInt (s : String) : Option Int := parsePyIntList s.data

/-- Embedding of `safe_int(x, default)`: `int(x)` with the given fallback on
failure. -/
def safe_int (x : String) (d : Int) : Int := (parsePyInt x).getD d

/-- The typed record produced by a successful parse (the dict returned by
`parse_log_line`, after the `status`/`size` conversions). -/
structure LogRecord where
  ip : String
  time : String
  method : String
  path : String
  proto : String
  status : Int
  size : Int
  referer : String
  ua : String
  deriving DecidableEq, Repr

/-- Field conversions applied by `parse_log_line` to the raw match:
`status` through `safe_int`, `size` mapped to `0` for the literal `-` and
through `safe_int` otherwise. -/
def toRecord (m : RawMatch) : LogRecord :=
  { ip := ⟨m.ip⟩, time := ⟨m.time⟩, method := ⟨m.method⟩, path := ⟨m.path⟩,
    proto := ⟨m.proto⟩,
    status := safe_int ⟨m.status⟩ 0,
    size := if (⟨m.size⟩ : String) = "-" then 0 else safe_int ⟨m.size⟩ 0,
    referer := ⟨m.referer⟩, ua := ⟨m.ua⟩ }

/-- Embedding of `parse_log_line(line)`: `none` models the Python `None`
(malformed line). -/
def parse_log_line (line : String) : Option LogRecord :=
  (matchLog line.data).map toRecord

/-! ### Aggregation (the loop body of `main`)

A Python `collections.Counter` is modelled as an association list in key
first-insertion order with strictly positive counts; `incr` is
`counter[key] += 1` (update in place if present, else append with count 1),
mirroring dict insertion-order semantics. -/

/-- Increment the count of `k` in a counter (`counter[k] += 1`). -/
def incr {K : Type} [DecidableEq K] (k : K) : List (K × Nat) → List (K × Nat)
  | [] => [(k, 1)]
  | (k', n) :: t => if k' = k then (k', n + 1) :: t else (k', n) :: incr k t

/-- The mutable state of `main`'s aggregation loop: the three counters, the
three line counters and the malformed-line sample. -/
structure AggState where
  ip_counts : List (String × Nat)
  ua_counts : List (String × Nat)
  status_counts : List (Int × Nat)
  total_lines : Nat
  parsed_lines : Nat
  malformed_lines : Nat
  errors_sample : List String
  deriving DecidableEq, Repr

/-- The state before the loop (`Counter()`s, zero counters, empty sample). -/
def initState : AggState := ⟨[], [], [], 0, 0, 0, []⟩

/-- One iteration of `main`'s `for line in read_lines(...)` loop. -/
def stepLine (s : AggState) (line : String) : AggState :=
  match parse_log_line line with
  | none =>
      { s with
        total_lines := s.total_lines + 1,
        malformed_lines := s.malformed_lines + 1,
        errors_sample :=
          if s.errors_sample.length < 50 then s.errors_sample ++ [line]
          else s.errors_sample }
  | some r =>
      { s with
        total_lines := s.total_lines + 1,
        parsed_lines := s.parsed_lines + 1,
        ip_counts := incr r.ip s.ip_counts,
        ua_counts := incr r.ua s.ua_counts,
        status_counts := incr r.status s.status_counts }

/-- The full aggregation pass of `main` over a list of lines. -/
def aggregate (lines : List String) : AggState := lines.foldl stepLine initState

/-! ### Top-K selection (`Counter.most_common(n)`)

`most_common(n)` is a stable sort of the counter items by count descending
(ties keep first-insertion order), truncated to `n` entries. -/

/-- Insert an item into a count-descending list, before any later-inserted
item of equal count (stability). -/
def insertDesc {K : Type} (x : K × Nat) : List (K × Nat) → List (K × Nat)
  | [] => [x]
  | y :: ys => if x.2 < y.2 then y :: insertDesc x ys else x :: y :: ys

/-- Stable sort by count descending. -/
def sortDesc {K : Type} (l : List (K × Nat)) : List (K × Nat) :=
  l.foldr insertDesc []

/-- Embedding of `counter.most_common(n)`. -/
def most_common {K : Type} (n : Nat) (t : List (K × Nat)) : List (K × Nat) :=
  (sortDesc t).take n

/-! ### HTML rendering (`make_html_report`) -/

/-- Per-character action of Python `html.escape(s, quote=True)`.  The Python
implementation substitutes `&` first and then the four markup characters, so
no introduced entity is rewritten again; the net effect is this independent
per-character mapping. -/
def escapeChar (c : Char) : String :=
  if c = '&' then "&amp;"
  else if c = '<' then "&lt;"
  else if c = '>' then "&gt;"
  else if c = '"' then "&quot;"
  else if c = Char.ofNat 39 then "&#x27;"
  else String.singleton c

/-- Concatenation of `f` over a list (used instead of `String.join ∘ map`
so that lemmas can proceed by structural induction). -/
def concatMapStr {α : Type} (f : α → String) : List α → String
  | [] => ""
  | a :: l => f a ++ concatMapStr f l

/-- Embedding of `html.escape(s)` (quote=True default). -/
def htmlEscape (s : String) : String := concatMapStr escapeChar s.data

/-- Embedding of Python `"\n".join(l)`. -/
def joinLines : List String → String
  | [] => ""
  | [x] => x
  | x :: y :: r => x ++ "\n" ++ joinLines (y :: r)

/-- The local helper `tr(cells)` of `make_html_report`; callers pass each
cell already converted by `str` (numbers via their decimal rendering). -/
def tr (cells : List String) : String :=
  "<tr>" ++ concatMapStr (fun c => "<td>" ++ htmlEscape c ++ "</td>") cells ++ "</tr>"

/-- Python `"\n".join(rows) or tr(["-", 0])`: the joined rows, or the
placeholder row when the row list is empty (empty string is falsy). -/
def rowsOrDefault (rows : List String) : String :=
  if rows.isEmpty then tr ["-", "0"] else joinLines rows

/-- The `errors_html` block of `make_html_report`: a list with the first 20
sample entries, or a placeholder paragraph when the sample is empty. -/
def errorsHtml (errors_sample : List String) : String :=
  if errors_sample.isEmpty then "<p>No malformed lines found.</p>"
  else
    "<ul>" ++
      joinLines ((errors_sample.take 20).map
        (fun x => "<li><code>" ++ htmlEscape x ++ "</code></li>")) ++
    "</ul>"

/-- The `summary` dict passed to `make_html_report` (all four keys are
always present). -/
structure Summary where
  input_file : String
  total_lines : Nat
  parsed_lines : Nat
  malformed_lines : Nat
  deriving DecidableEq, Repr

/-- Insert into a key-ascending list (for `sorted(status_counts.items())`;
status keys are unique so ties do not arise). -/
def insertAsc (x : Int × Nat) : List (Int × Nat) → List (Int × Nat)
  | [] => [x]
  | y :: ys => if x.1 ≤ y.1 then x :: y :: ys else y :: insertAsc x ys

/-- Embedding of `sorted(items)` by key ascending. -/
def sortAsc (l : List (Int × Nat)) : List (Int × Nat) := l.foldr insertAsc []

/-! The static segments of the f-string template of `make_html_report`,
split at the interpolation holes.  Literal CSS braces (doubled in the
Python f-string) are written `\x7b`/`\x7d`. -/

/-- Template up to the `<title>` hole. -/
def htmlHead1 : String :=
  "<!doctype html>\n<html lang=\"en\">\n<head>\n  <meta charset=\"utf-8\" />\n  <meta name=\"viewport\" content=\"width=device-width,initial-scale=1\" />\n  <title>"

/-- Template from `</title>` through the style block to the `<h1>` hole. -/
def htmlHead2 : String :=
  "</title>\n  <style>\n    body \x7b font-family: Arial, sans-serif; margin: 24px; \x7d\n    .meta \x7b color: #555; margin-bottom: 18px; \x7d\n    table \x7b border-collapse: collapse; width: 100%; margin: 12px 0 24px 0; \x7d\n    th, td \x7b border: 1px solid #ddd; padding: 8px; vertical-align: top; \x7d\n    th \x7b background: #f3f3f3; text-align: left; \x7d\n    code \x7b background: #f7f7f7; padding: 2px 4px; border-radius: 4px; \x7d\n    .grid \x7b display: grid; grid-template-columns: 1fr; gap: 18px; \x7d\n    @media (min-width: 900px) \x7b\n      .grid \x7b grid-template-columns: 1fr 1fr; \x7d\n    \x7d\n  </style>\n</head>\n<body>\n  <h1>"

/-- Template between the `<h1>` hole and the generation-timestamp hole. -/
def htmlPart3 : String := "</h1>\n  <div class=\"meta\">Generated at: "

/-- Template from the timestamp to the first summary row. -/
def htmlPart4 : String :=
  "</div>\n\n  <h2>Summary</h2>\n  <table>\n    <tr><th>Metric</th><th>Value</th></tr>\n    "

/-- Template from the summary table to the `rows_ips` hole. -/
def htmlPart5 : String :=
  "\n  </table>\n\n  <div class=\"grid\">\n    <div>\n      <h2>Top IP addresses</h2>\n      <table>\n        <tr><th>IP</th><th>Count</th></tr>\n        "

/-- Template between `rows_ips` and `rows_uas`. -/
def htmlPart6 : String :=
  "\n      </table>\n    </div>\n\n    <div>\n      <h2>Top User-Agents</h2>\n      <table>\n        <tr><th>User-Agent</th><th>Count</th></tr>\n        "

/-- Template between `rows_uas` and `rows_status`. -/
def htmlPart7 : String :=
  "\n      </table>\n    </div>\n  </div>\n\n  <h2>HTTP status codes</h2>\n  <table>\n    <tr><th>Status</th><th>Count</th></tr>\n    "

/-- Template between `rows_status` and the `errors_html` hole. -/
def htmlPart8 : String := "\n  </table>\n\n  <h2>Malformed lines sample</h2>\n  "

/-- Template tail after `errors_html`. -/
def htmlPart9 : String := "\n\n</body>\n</html>\n"

/-- Embedding of `make_html_report`.  The Python function reads the
generation timestamp from the ambient clock (`datetime.now()`); the
embedding takes it as the explicit parameter `now`, which is the only
environmental input of the function. -/
def make_html_report (title now : String) (summary : Summary)
    (top_ips top_uas : List (String × Nat)) (status_counts : List (Int × Nat))
    (errors_sample : List String) : String :=
  let rows_ips := rowsOrDefault (top_ips.map (fun p => tr [p.1, Nat.repr p.2]))
  let rows_uas := rowsOrDefault (top_uas.map (fun p => tr [p.1, Nat.repr p.2]))
  let rows_status := rowsOrDefault
    ((sortAsc status_counts).map (fun p => tr [Int.repr p.1, Nat.repr p.2]))
  htmlHead1 ++ htmlEscape title ++ htmlHead2 ++ htmlEscape title ++ htmlPart3 ++
    htmlEscape now ++ htmlPart4 ++
    tr ["Input file", summary.input_file] ++ "\n    " ++
    tr ["Total lines", Nat.repr summary.total_lines] ++ "\n    " ++
    tr ["Parsed lines", Nat.repr summary.parsed_lines] ++ "\n    " ++
    tr ["Malformed lines", Nat.repr summary.malformed_lines] ++
    htmlPart5 ++ rows_ips ++ htmlPart6 ++ rows_uas ++ htmlPart7 ++ rows_status ++
    htmlPart8 ++ errorsHtml errors_sample ++ htmlPart9

/-! ### Line reading and the `main` driver -/

/-- Embedding of `line.rstrip("\n")`: strip trailing newline characters. -/
def rstripNl (s : String) : String :=
  ⟨(s.data.reverse.dropWhile (fun c => c = '\n')).reverse⟩

/-- Embedding of `read_lines(path, max_lines)` over the file's raw lines.
`max_lines` is applied by Python truthiness: `0` means unbounded, a negative
value is truthy and stops before the first line (`idx > max_lines` always),
hence `Int.toNat` of a negative cap yields the empty prefix. -/
def readLines (raw : List String) (maxLines : Int) : List String :=
  (if maxLines = 0 then raw else raw.take maxLines.toNat).map rstripNl

/-- The fixed report title of `main`. -/
def report_title : String := "Web Server Log Report (Apache/Nginx)"

/-- The successful-path computation of `main` (after the existence check):
read, aggregate, clamp `top`, select top-K, and render the report.  `now` is
the generation timestamp read by `make_html_report`. -/
def runPipeline (raw : List String) (top maxLines : Int)
    (inputFile now : String) : String :=
  let lines := readLines raw maxLines
  let s := aggregate lines
  let top_n := (max 1 top).toNat
  let top_ips := most_common top_n s.ip_counts
  let top_uas := most_common top_n s.ua_counts
  let summary : Summary := ⟨inputFile, s.total_lines, s.parsed_lines, s.malformed_lines⟩
  make_html_report report_title now summary top_ips top_uas s.status_counts
    s.errors_sample

/-- Observable outcome of one run of `main`: process exit code, the report
written to the sink (if any), the stderr and stdout lines, and the final
aggregation state (`none` when the run aborts before aggregation). -/
structure MainOutcome where
  exit_code : Nat
  report : Option String
  err_lines : List String
  out_lines : List String
  aggregated : Option AggState
  deriving Repr

/-- Embedding of `main()`.  `inputExists` models `os.path.isfile(args.input)`;
`raw` models the file contents as raw lines; file reading and the sink write
are modelled as succeeding (source/sink I/O failures are outside the
embedding).  The existence check precedes every aggregation structure. -/
def runMain (inputExists : Bool) (inputPath outputPath : String)
    (top maxLines : Int) (raw : List String) (now : String) : MainOutcome :=
  if inputExists then
    let s := aggregate (readLines raw maxLines)
    { exit_code := 0,
      report := some (runPipeline raw top maxLines inputPath now),
      err_lines := [],
      out_lines :=
        ["OK: report generated: " ++ outputPath,
         "Total lines: " ++ Nat.repr s.total_lines ++ ", Parsed: " ++
           Nat.repr s.parsed_lines ++ ", Malformed: " ++
           Nat.repr s.malformed_lines],
      aggregated := some s }
  else
    { exit_code := 1,
      report := none,
      err_lines := ["ERROR: input file not found: " ++ inputPath],
      out_lines := [],
      aggregated := none }

/-! ## Lemmas about the aggregation loop -/

/-- Total count held by a frequency table (sum over all keys). -/
def sumCounts {K : Type} (t : List (K × Nat)) : Nat := (t.map Prod.snd).sum

/-- The Boolean test `main` performs on a parse outcome (`if not parsed`). -/
def isMalformed (line : String) : Bool := (parse_log_line line).isNone

theorem sumCounts_incr {K : Type} [DecidableEq K] (k : K) (t : List (K × Nat)) :
    sumCounts (incr k t) = sumCounts t + 1 := by
  induction t with
  | nil => rfl
  | cons p t ih =>
      obtain ⟨k', n⟩ := p
      by_cases h : k' = k <;> simp [incr, h, sumCounts] at ih ⊢ <;> omega

theorem stepLine_total (s : AggState) (l : String) :
    (stepLine s l).total_lines = s.total_lines + 1 := by
  unfold stepLine
  cases parse_log_line l <;> rfl

theorem stepLine_one_of (s : AggState) (l : String) :
    (stepLine s l).parsed_lines + (stepLine s l).malformed_lines =
      s.parsed_lines + s.malformed_lines + 1 := by
  unfold stepLine
  cases parse_log_line l <;> simp <;> omega

theorem aggregate_loop (lines : List String) : ∀ s : AggState,
    (lines.foldl stepLine s).total_lines = s.total_lines + lines.length ∧
    (lines.foldl stepLine s).parsed_lines =
      s.parsed_lines + lines.countP (fun l => (parse_log_line l).isSome) ∧
    (lines.foldl stepLine s).malformed_lines =
      s.malformed_lines + lines.countP isMalformed ∧
    sumCounts (lines.foldl stepLine s).ip_counts =
      sumCounts s.ip_counts + lines.countP (fun l => (parse_log_line l).isSome) ∧
    sumCounts (lines.foldl stepLine s).ua_counts =
      sumCounts s.ua_counts + lines.countP (fun l => (parse_log_line l).isSome) ∧
    sumCounts (lines.foldl stepLine s).status_counts =
      sumCounts s.status_counts + lines.countP (fun l => (parse_log_line l).isSome) := by
  induction lines with
  | nil => intro s; simp
  | cons l ls ih =>
      intro s
      have h := ih (stepLine s l)
      obtain ⟨h1, h2, h3, h4, h5, h6⟩ := h
      simp only [List.foldl_cons, List.countP_cons, List.length_cons] at *
      unfold stepLine at *
      cases hp : parse_log_line l with
      | none =>
          simp only [hp] at h1 h2 h3 h4 h5 h6
          simp_all [isMalformed, hp]
          omega
      | some r =>
          simp only [hp] at h1 h2 h3 h4 h5 h6
          simp_all [isMalformed, hp, sumCounts_incr]
          omega

theorem countP_not_add (p : String → Bool) (l : List String) :
    l.countP p + l.countP (fun a => !(p a)) = l.length := by
  induction l with
  | nil => rfl
  | cons a l ih =>
      by_cases h : p a <;> simp [List.countP_cons, h] <;> omega

theorem isMalformed_eq_not (l : String) :
    isMalformed l = !((parse_log_line l).isSome) := by
  unfold isMalformed
  cases parse_log_line l <;> rfl

theorem sample_loop (lines : List String) : ∀ (prev : List String) (s : AggState),
    s.errors_sample = prev.take 50 →
    (lines.foldl stepLine s).errors_sample =
      (prev ++ lines.filter isMalformed).take 50 := by
  induction lines with
  | nil =>
      intro prev s h
      simpa using h
  | cons l ls ih =>
      intro prev s h
      simp only [List.foldl_cons]
      cases hp : parse_log_line l with
      | some r =>
          have hmal : isMalformed l = false := by simp [isMalformed, hp]
          have hs : (stepLine s l).errors_sample = prev.take 50 := by
            simp [stepLine, hp, h]
          rw [ih prev (stepLine s l) hs, List.filter_cons, hmal]
          simp
      | none =>
          have hmal : isMalformed l = true := by simp [isMalformed, hp]
          by_cases hlen : prev.length < 50
          · have htp : prev.take 50 = prev := List.take_of_length_le (by omega)
            have hs : (stepLine s l).errors_sample = (prev ++ [l]).take 50 := by
              have : (prev ++ [l]).take 50 = prev ++ [l] :=
                List.take_of_length_le (by simp; omega)
              simp [stepLine, hp, h, htp, hlen, this]
            rw [ih (prev ++ [l]) (stepLine s l) hs, List.filter_cons, hmal]
            simp
          · have hcond : ¬ (s.errors_sample.length < 50) := by
              rw [h, List.length_take]
              omega
            have hs : (stepLine s l).errors_sample = (prev ++ [l]).take 50 := by
              unfold stepLine
              simp only [hp]
              rw [if_neg hcond, h, List.take_append_of_le_length (by omega)]
            rw [ih (prev ++ [l]) (stepLine s l) hs, List.filter_cons, hmal]
            simp

/-- C1: after the full aggregation pass, `totalLines = parsedLines +
malformedLines`; pointwise, each loop iteration increments `totalLines` by
one and exactly one of `parsedLines`/`malformedLines` by one. -/
theorem total_eq_parsed_add_malformed :
    (∀ lines : List String,
      (aggregate lines).total_lines =
        (aggregate lines).parsed_lines + (aggregate lines).malformed_lines) ∧
    (∀ (s : AggState) (l : String),
      (stepLine s l).total_lines = s.total_lines + 1 ∧
      (stepLine s l).parsed_lines + (stepLine s l).malformed_lines =
        s.parsed_lines + s.malformed_lines + 1) := by
  constructor
  · intro lines
    obtain ⟨h1, h2, h3, -⟩ := aggregate_loop lines initState
    unfold aggregate
    rw [h1, h2, h3]
    have hc := countP_not_add (fun l => (parse_log_line l).isSome) lines
    simp only [initState, Nat.zero_add]
    have : lines.countP isMalformed =
        lines.countP (fun a => !((parse_log_line a).isSome)) := by
      apply List.countP_congr
      intro a _
      rw [isMalformed_eq_not]
    omega
  · intro s l
    exact ⟨stepLine_total s l, stepLine_one_of s l⟩

/-- C10: after the aggregation pass, the counts in each of the three
frequency tables (client address, user agent, status code) sum to
`parsedLines`. -/
theorem table_sums_eq_parsed (lines : List String) :
    sumCounts (aggregate lines).ip_counts = (aggregate lines).parsed_lines ∧
    sumCounts (aggregate lines).ua_counts = (aggregate lines).parsed_lines ∧
    sumCounts (aggregate lines).status_counts = (aggregate lines).parsed_lines := by
  obtain ⟨-, h2, -, h4, h5, h6⟩ := aggregate_loop lines initState
  unfold aggregate
  rw [h2, h4, h5, h6]
  simp [initState, sumCounts]

/-! ## Size-token behaviour (claims C3 and C4) -/

theorem safe_int_nonneg (s : String) (hs : s.data.head? ≠ some (Char.ofNat 45)) :
    0 ≤ safe_int s 0 := by
  unfold safe_int parsePyInt
  cases hd : s.data with
  | nil => simp [parsePyIntList]
  | cons c rest =>
      have hc : ¬ (c = Char.ofNat 45) := by
        intro hcc
        exact hs (by rw [hd, hcc]; rfl)
      simp only [parsePyIntList]
      rw [if_neg hc]
      by_cases hp : c = '+'
      · rw [if_pos hp]
        cases pyIntDigits rest <;> simp
      · rw [if_neg hp]
        cases pyIntDigits (c :: rest) <;> simp

/-- A sample line whose size token is the non-numeric `abc`. -/
def abcLine : String :=
  "1.1.1.1 - - [t] \"GET / HTTP/1.0\" 200 abc \"-\" \"u\""

/-- The raw match produced by `LOG_PATTERN` on `abcLine`. -/
def abcMatch : RawMatch :=
  ⟨"1.1.1.1".data, "t".data, "GET".data, "/".data, "HTTP/1.0".data,
   "200".data, "abc".data, "-".data, "u".data⟩

/-- C3: for every line accepted by the grammar, a size token that is the
literal `-` or that fails to parse as an integer yields a successfully
parsed record with `responseSize = 0` (the line is not rejected). -/
theorem size_dash_or_unparsable_zero (line : String) (m : RawMatch)
    (h : matchLog line.data = some m)
    (hsz : (⟨m.size⟩ : String) = "-" ∨ parsePyInt ⟨m.size⟩ = none) :
    ∃ r, parse_log_line line = some r ∧ r.size = 0 := by
  refine ⟨toRecord m, ?_, ?_⟩
  · unfold parse_log_line
    rw [h]
    rfl
  · unfold toRecord
    rcases hsz with h1 | h1
    · simp [h1]
    · by_cases h2 : (⟨m.size⟩ : String) = "-"
      · simp [h2]
      · simp [h2, safe_int, h1]

/-- Witness for C3 at the concrete line `abcLine`. -/
theorem size_dash_or_unparsable_zero_witness :
    ∃ r, parse_log_line abcLine = some r ∧ r.size = 0 :=
  size_dash_or_unparsable_zero abcLine abcMatch (by decide) (Or.inr (by decide))

/-- A line whose size token is `-5`: accepted by `\S+` and parsed by
Python `int` to a negative number. -/
def negLine : String :=
  "1.2.3.4 - - [t] \"GET / HTTP/1.0\" 200 -5 \"-\" \"ua\""

/-- C4 counterexample: the parser accepts `negLine` and produces
`responseSize = -5 < 0`, refuting the claim that every successfully parsed
record has a non-negative size. -/
theorem response_size_nonneg_counterexample :
    ∃ r, parse_log_line negLine = some r ∧ r.size < 0 :=
  ⟨⟨"1.2.3.4", "t", "GET", "/", "HTTP/1.0", 200, -5, "-", "ua"⟩,
   by decide, by decide⟩

/-- C4 amended: every successfully parsed record whose size token does not
begin with a minus sign has `responseSize ≥ 0` (size tokens beginning with
`-` other than the bare literal can parse to a negative value). -/
theorem response_size_nonneg_unless_negative_token (line : String)
    (m : RawMatch) (h : matchLog line.data = some m)
    (hm : m.size.head? ≠ some (Char.ofNat 45)) :
    ∃ r, parse_log_line line = some r ∧ 0 ≤ r.size := by
  refine ⟨toRecord m, ?_, ?_⟩
  · unfold parse_log_line
    rw [h]
    rfl
  · unfold toRecord
    by_cases h2 : (⟨m.size⟩ : String) = "-"
    · simp [h2]
    · simp only [h2, if_false]
      have : ((⟨m.size⟩ : String)).data = m.size := rfl
      simpa using safe_int_nonneg ⟨m.size⟩ (by rw [this]; exact hm)

/-- Witness for the amended C4 at a concrete line with a numeric size. -/
theorem response_size_nonneg_unless_negative_token_witness :
    ∃ r, parse_log_line "1.2.3.4 - - [t] \"GET / HTTP/1.0\" 200 77 \"-\" \"ua\"" = some r ∧
      0 ≤ r.size :=
  response_size_nonneg_unless_negative_token
    "1.2.3.4 - - [t] \"GET / HTTP/1.0\" 200 77 \"-\" \"ua\""
    ⟨"1.2.3.4".data, "t".data, "GET".data, "/".data, "HTTP/1.0".data,
     "200".data, "77".data, "-".data, "ua".data⟩
    (by decide) (by decide)

/-- C7: every line failing the grammar is recorded with its exact raw text,
in first-seen order, in the malformed sample, which is capped at 50 entries
while `malformedLines` counts all of them; the renderer shows only the
first 20 sample entries. -/
theorem malformed_sample_exact :
    (∀ lines : List String,
      (aggregate lines).errors_sample = (lines.filter isMalformed).take 50 ∧
      (aggregate lines).malformed_lines = (lines.filter isMalformed).length) ∧
    (∀ errs : List String, errorsHtml errs = errorsHtml (errs.take 20)) := by
  constructor
  · intro lines
    constructor
    · have := sample_loop lines [] initState (by rfl)
      simpa [aggregate] using this
    · obtain ⟨-, -, h3, -⟩ := aggregate_loop lines initState
      unfold aggregate
      rw [h3]
      simp [initState, List.countP_eq_length_filter]
  · intro errs
    unfold errorsHtml
    rcases errs with - | ⟨e, es⟩
    · rfl
    · simp [List.take_take]

/-! ## Top-K selection lemmas (claim C6) -/

theorem length_insertDesc {K : Type} (x : K × Nat) (l : List (K × Nat)) :
    (insertDesc x l).length = l.length + 1 := by
  induction l with
  | nil => rfl
  | cons y ys ih =>
      unfold insertDesc
      by_cases h : x.2 < y.2 <;> simp [h, ih]

theorem length_sortDesc {K : Type} (l : List (K × Nat)) :
    (sortDesc l).length = l.length := by
  induction l with
  | nil => rfl
  | cons y ys ih =>
      simp [sortDesc, List.foldr_cons] at ih ⊢
      rw [length_insertDesc]
      omega

theorem mem_insertDesc {K : Type} (x z : K × Nat) (l : List (K × Nat)) :
    z ∈ insertDesc x l ↔ z = x ∨ z ∈ l := by
  induction l with
  | nil => simp [insertDesc]
  | cons y ys ih =>
      unfold insertDesc
      by_cases h : x.2 < y.2
      · rw [if_pos h]
        simp only [List.mem_cons, ih]
        tauto
      · rw [if_neg h]
        simp only [List.mem_cons]

theorem pairwise_insertDesc {K : Type} (x : K × Nat) (l : List (K × Nat))
    (h : List.Pairwise (fun a b => b.2 ≤ a.2) l) :
    List.Pairwise (fun a b => b.2 ≤ a.2) (insertDesc x l) := by
  induction l with
  | nil => simp [insertDesc]
  | cons y ys ih =>
      rw [List.pairwise_cons] at h
      obtain ⟨hy, hys⟩ := h
      unfold insertDesc
      by_cases hc : x.2 < y.2
      · rw [if_pos hc, List.pairwise_cons]
        refine ⟨?_, ih hys⟩
        intro z hz
        rcases (mem_insertDesc x z ys).mp hz with rfl | hz
        · omega
        · exact hy z hz
      · rw [if_neg hc, List.pairwise_cons]
        refine ⟨?_, List.pairwise_cons.mpr ⟨hy, hys⟩⟩
        intro z hz
        rcases List.mem_cons.mp hz with rfl | hz
        · omega
        · have := hy z hz
          omega

theorem pairwise_sortDesc {K : Type} (l : List (K × Nat)) :
    List.Pairwise (fun a b => b.2 ≤ a.2) (sortDesc l) := by
  induction l with
  | nil => simp [sortDesc]
  | cons y ys ih => exact pairwise_insertDesc y (sortDesc ys) ih

theorem keys_incr {K : Type} [DecidableEq K] (k : K) (t : List (K × Nat)) :
    (incr k t).map Prod.fst =
      if k ∈ t.map Prod.fst then t.map Prod.fst else t.map Prod.fst ++ [k] := by
  induction t with
  | nil => simp [incr]
  | cons p t ih =>
      obtain ⟨k', n⟩ := p
      by_cases h : k' = k
      · subst h
        simp [incr]
      · have hne : ¬ (k = k') := fun hc => h hc.symm
        by_cases hm : k ∈ t.map Prod.fst <;>
          simp [incr, h, hne, hm, List.mem_cons, ih]

theorem nodup_incr {K : Type} [DecidableEq K] (k : K) (t : List (K × Nat))
    (h : (t.map Prod.fst).Nodup) : ((incr k t).map Prod.fst).Nodup := by
  rw [keys_incr]
  by_cases hm : k ∈ t.map Prod.fst
  · rwa [if_pos hm]
  · rw [if_neg hm]
    simp [List.nodup_append, h, hm]

theorem aggregate_nodup_loop (lines : List String) : ∀ s : AggState,
    (s.ip_counts.map Prod.fst).Nodup →
    (s.ua_counts.map Prod.fst).Nodup →
    (s.status_counts.map Prod.fst).Nodup →
    ((lines.foldl stepLine s).ip_counts.map Prod.fst).Nodup ∧
    ((lines.foldl stepLine s).ua_counts.map Prod.fst).Nodup ∧
    ((lines.foldl stepLine s).status_counts.map Prod.fst).Nodup := by
  induction lines with
  | nil =>
      intro s h1 h2 h3
      exact ⟨h1, h2, h3⟩
  | cons l ls ih =>
      intro s h1 h2 h3
      simp only [List.foldl_cons]
      apply ih
      all_goals
        unfold stepLine
        cases hp : parse_log_line l <;>
          simp [nodup_incr, h1, h2, h3]

/-- C6: top-K selection with the requested count clamped to a minimum of 1
returns at most `max(1,N)` entries, never more entries than the table has,
in count-descending order; the empty table yields the empty result.  The
aggregation tables have pairwise-distinct keys, so their length is their
number of distinct keys. -/
theorem most_common_spec :
    (∀ (K : Type) (t : List (K × Nat)) (n : Int),
      (most_common (max 1 n).toNat t).length ≤ (max 1 n).toNat ∧
      (most_common (max 1 n).toNat t).length ≤ t.length ∧
      List.Pairwise (fun a b => b.2 ≤ a.2) (most_common (max 1 n).toNat t) ∧
      (t = [] → most_common (max 1 n).toNat t = [])) ∧
    (∀ lines : List String,
      ((aggregate lines).ip_counts.map Prod.fst).Nodup ∧
      ((aggregate lines).ua_counts.map Prod.fst).Nodup ∧
      ((aggregate lines).status_counts.map Prod.fst).Nodup) := by
  constructor
  · intro K t n
    refine ⟨?_, ?_, ?_, ?_⟩
    · simp [most_common]
    · rw [most_common]
      calc ((sortDesc t).take (max 1 n).toNat).length
          ≤ (sortDesc t).length := (List.take_sublist _ _).length_le
        _ = t.length := length_sortDesc t
    · exact (pairwise_sortDesc t).sublist (List.take_sublist _ _)
    · rintro rfl
      simp [most_common, sortDesc]
  · intro lines
    exact aggregate_nodup_loop lines initState (by simp [initState])
      (by simp [initState]) (by simp [initState])

/-- Witness instantiating the conditional part of C6 (`t = []` implies the
empty result) at the empty table with a non-positive requested count. -/
theorem most_common_spec_witness :
    most_common (max 1 (0 : Int)).toNat ([] : List (String × Nat)) = [] :=
  (most_common_spec.1 String [] 0).2.2.2 rfl

/-! ## Determinism (claim C8) and the exit contract (claim C9) -/

/-- C8: the pipeline is deterministic.  In the embedding every
environmental input of the run — the raw file lines, the CLI parameters and
the generation timestamp read from the clock — is an explicit parameter of
`runPipeline`, and two runs on byte-identical inputs with a frozen
timestamp render byte-identical documents. -/
theorem pipeline_deterministic (raw1 raw2 : List String)
    (top1 top2 maxL1 maxL2 : Int) (f1 f2 now1 now2 : String)
    (h1 : raw1 = raw2) (h2 : top1 = top2) (h3 : maxL1 = maxL2)
    (h4 : f1 = f2) (h5 : now1 = now2) :
    runPipeline raw1 top1 maxL1 f1 now1 = runPipeline raw2 top2 maxL2 f2 now2 := by
  subst h1 h2 h3 h4 h5
  rfl

/-- Witness for C8 at a concrete input. -/
theorem pipeline_deterministic_witness :
    runPipeline ["x"] 10 0 "access.log" "2024-01-01 00:00:00" =
      runPipeline ["x"] 10 0 "access.log" "2024-01-01 00:00:00" :=
  pipeline_deterministic ["x"] ["x"] 10 10 0 0 "access.log" "access.log"
    "2024-01-01 00:00:00" "2024-01-01 00:00:00" rfl rfl rfl rfl rfl

/-- C9: when the input source does not exist, `main` exits with status 1
and a human-readable error on stderr before any aggregation (no aggregate
state, no report, no stdout); otherwise it exits with status 0 after
producing the report and printing the one-line summary. -/
theorem main_exit_contract (inputExists : Bool) (inputPath outputPath : String)
    (top maxLines : Int) (raw : List String) (now : String) :
    (inputExists = false →
      runMain inputExists inputPath outputPath top maxLines raw now =
        ⟨1, none, ["ERROR: input file not found: " ++ inputPath], [], none⟩) ∧
    (inputExists = true →
      (runMain inputExists inputPath outputPath top maxLines raw now).exit_code = 0 ∧
      (runMain inputExists inputPath outputPath top maxLines raw now).report =
        some (runPipeline raw top maxLines inputPath now) ∧
      (runMain inputExists inputPath outputPath top maxLines raw now).err_lines = [] ∧
      (runMain inputExists inputPath outputPath top maxLines raw now).out_lines =
        ["OK: report generated: " ++ outputPath,
         "Total lines: " ++ Nat.repr (aggregate (readLines raw maxLines)).total_lines ++
           ", Parsed: " ++ Nat.repr (aggregate (readLines raw maxLines)).parsed_lines ++
           ", Malformed: " ++ Nat.repr (aggregate (readLines raw maxLines)).malformed_lines] ∧
      (runMain inputExists inputPath outputPath top maxLines raw now).aggregated =
        some (aggregate (readLines raw maxLines))) := by
  constructor
  · rintro rfl
    rfl
  · rintro rfl
    refine ⟨rfl, rfl, rfl, rfl, rfl⟩

/-- Witness for C9: both branches of the exit contract at concrete
arguments. -/
theorem main_exit_contract_witness :
    runMain false "missing.log" "report.html" 10 0 [] "t" =
      ⟨1, none, ["ERROR: input file not found: " ++ "missing.log"], [], none⟩ ∧
    (runMain true "access.log" "report.html" 10 0 [] "t").exit_code = 0 :=
  ⟨(main_exit_contract false "missing.log" "report.html" 10 0 [] "t").1 rfl,
   ((main_exit_contract true "access.log" "report.html" 10 0 [] "t").2 rfl).1⟩

/-! ## Anchored-grammar soundness (claim C5)

`GrammarDecomp l m` says the character list `l` decomposes, in its
entirety, into the tokens and literal delimiters of the documented grammar

  `ip id1 id2 [time] "method path proto" status size "referer" "ua"`

with the character-class constraints of each field.  The soundness theorem
shows that a successful `matchLog` covers the whole line — the match is
anchored at both ends. -/

/-- Full-line decomposition into the grammar's tokens and delimiters. -/
def GrammarDecomp (l : List Char) (m : RawMatch) : Prop :=
  ∃ w1 id1 w2 id2 w3 w4 w5 w6 w7 w8 w9 w10 wend : List Char,
    l = m.ip ++ w1 ++ id1 ++ w2 ++ id2 ++ w3 ++ ['['] ++ m.time ++ [']'] ++ w4 ++
        ['"'] ++ m.method ++ w5 ++ m.path ++ w6 ++ m.proto ++ ['"'] ++ w7 ++
        m.status ++ w8 ++ m.size ++ w9 ++ ['"'] ++ m.referer ++ ['"'] ++ w10 ++
        ['"'] ++ m.ua ++ ['"'] ++ wend ∧
    (m.ip ≠ [] ∧ ∀ c ∈ m.ip, nonSpc c) ∧
    (w1 ≠ [] ∧ ∀ c ∈ w1, isSpc c) ∧
    (id1 ≠ [] ∧ ∀ c ∈ id1, nonSpc c) ∧
    (w2 ≠ [] ∧ ∀ c ∈ w2, isSpc c) ∧
    (id2 ≠ [] ∧ ∀ c ∈ id2, nonSpc c) ∧
    (w3 ≠ [] ∧ ∀ c ∈ w3, isSpc c) ∧
    (m.time ≠ [] ∧ ∀ c ∈ m.time, ¬(c = ']')) ∧
    (w4 ≠ [] ∧ ∀ c ∈ w4, isSpc c) ∧
    (m.method ≠ [] ∧ ∀ c ∈ m.method, nonSpc c) ∧
    (w5 ≠ [] ∧ ∀ c ∈ w5, isSpc c) ∧
    (m.path ≠ [] ∧ ∀ c ∈ m.path, nonSpc c) ∧
    (w6 ≠ [] ∧ ∀ c ∈ w6, isSpc c) ∧
    (m.proto ≠ [] ∧ ∀ c ∈ m.proto, ¬(c = '"')) ∧
    (w7 ≠ [] ∧ ∀ c ∈ w7, isSpc c) ∧
    (m.status.length = 3 ∧ ∀ c ∈ m.status, c.isDigit) ∧
    (w8 ≠ [] ∧ ∀ c ∈ w8, isSpc c) ∧
    (m.size ≠ [] ∧ ∀ c ∈ m.size, nonSpc c) ∧
    (w9 ≠ [] ∧ ∀ c ∈ w9, isSpc c) ∧
    (∀ c ∈ m.referer, ¬(c = '"')) ∧
    (w10 ≠ [] ∧ ∀ c ∈ w10, isSpc c) ∧
    (∀ c ∈ m.ua, ¬(c = '"')) ∧
    (∀ c ∈ wend, isSpc c)

theorem munch1_sound {p : Char → Bool} {l t r : List Char}
    (h : munch1 p l = some (t, r)) :
    l = t ++ r ∧ t ≠ [] ∧ ∀ c ∈ t, p c := by
  unfold munch1 at h
  by_cases he : (l.takeWhile p).isEmpty
  · rw [if_pos he] at h
    exact absurd h (by simp)
  · rw [if_neg he] at h
    simp only [Option.some.injEq, Prod.mk.injEq] at h
    obtain ⟨ht, hr⟩ := h
    subst ht hr
    refine ⟨(List.takeWhile_append_dropWhile ..).symm, ?_, ?_⟩
    · simpa [List.isEmpty_iff] using he
    · intro c hc
      exact List.mem_takeWhile_imp hc

theorem munch0_sound (p : Char → Bool) (l : List Char) :
    l = (munch0 p l).1 ++ (munch0 p l).2 ∧ ∀ c ∈ (munch0 p l).1, p c := by
  refine ⟨(List.takeWhile_append_dropWhile ..).symm, ?_⟩
  intro c hc
  exact List.mem_takeWhile_imp hc

theorem expectChar_sound {c : Char} {l r : List Char}
    (h : expectChar c l = some r) : l = c :: r := by
  cases l with
  | nil => exact absurd h (by simp [expectChar])
  | cons c' l' =>
      simp only [expectChar] at h
      by_cases hc : c' = c
      · rw [if_pos hc] at h
        simp only [Option.some.injEq] at h
        rw [hc, h]
      · rw [if_neg hc] at h
        exact absurd h (by simp)

theorem digits3_sound {l t r : List Char} (h : digits3 l = some (t, r)) :
    l = t ++ r ∧ t.length = 3 ∧ ∀ c ∈ t, c.isDigit := by
  match l with
  | [] => exact absurd h (by simp [digits3])
  | [c1] => exact absurd h (by simp [digits3])
  | [c1, c2] => exact absurd h (by simp [digits3])
  | c1 :: c2 :: c3 :: rest =>
      simp only [digits3] at h
      by_cases hd : c1.isDigit && c2.isDigit && c3.isDigit
      · rw [if_pos hd] at h
        simp only [Option.some.injEq, Prod.mk.injEq] at h
        obtain ⟨ht, hr⟩ := h
        subst ht hr
        simp only [Bool.and_eq_true] at hd
        obtain ⟨⟨d1, d2⟩, d3⟩ := hd
        refine ⟨rfl, rfl, ?_⟩
        intro c hc
        simp only [List.mem_cons, List.not_mem_nil, or_false] at hc
        rcases hc with rfl | rfl | rfl
        · exact d1
        · exact d2
        · exact d3
      · rw [if_neg hd] at h
        exact absurd h (by simp)

theorem matchStage1_sound {l0 ip l : List Char}
    (h : matchStage1 l0 = some (ip, l)) :
    ∃ w1 id1 w2 id2 w3 : List Char,
      l0 = ip ++ w1 ++ id1 ++ w2 ++ id2 ++ w3 ++ l ∧
      (ip ≠ [] ∧ ∀ c ∈ ip, nonSpc c) ∧ (w1 ≠ [] ∧ ∀ c ∈ w1, isSpc c) ∧
      (id1 ≠ [] ∧ ∀ c ∈ id1, nonSpc c) ∧ (w2 ≠ [] ∧ ∀ c ∈ w2, isSpc c) ∧
      (id2 ≠ [] ∧ ∀ c ∈ id2, nonSpc c) ∧ (w3 ≠ [] ∧ ∀ c ∈ w3, isSpc c) := by
  unfold matchStage1 at h
  try simp only [Option.bind_eq_some] at h
  obtain ⟨⟨ip1, l1⟩, h1, h⟩ := h
  try simp only [Option.bind_eq_some] at h
  obtain ⟨⟨w1, l2⟩, h2, h⟩ := h
  try simp only [Option.bind_eq_some] at h
  obtain ⟨⟨id1, l3⟩, h3, h⟩ := h
  try simp only [Option.bind_eq_some] at h
  obtain ⟨⟨w2, l4⟩, h4, h⟩ := h
  try simp only [Option.bind_eq_some] at h
  obtain ⟨⟨id2, l5⟩, h5, h⟩ := h
  try simp only [Option.bind_eq_some] at h
  obtain ⟨⟨w3, l6⟩, h6, h⟩ := h
  simp only [Option.some.injEq, Prod.mk.injEq] at h
  obtain ⟨rfl, rfl⟩ := h
  obtain ⟨e1, n1, p1⟩ := munch1_sound h1
  obtain ⟨e2, n2, p2⟩ := munch1_sound h2
  obtain ⟨e3, n3, p3⟩ := munch1_sound h3
  obtain ⟨e4, n4, p4⟩ := munch1_sound h4
  obtain ⟨e5, n5, p5⟩ := munch1_sound h5
  obtain ⟨e6, n6, p6⟩ := munch1_sound h6
  refine ⟨w1, id1, w2, id2, w3, ?_, ⟨n1, p1⟩, ⟨n2, p2⟩, ⟨n3, p3⟩,
    ⟨n4, p4⟩, ⟨n5, p5⟩, ⟨n6, p6⟩⟩
  rw [e1, e2, e3, e4, e5, e6]
  simp [List.append_assoc]

theorem munch0_eq {p : Char → Bool} {l t r : List Char}
    (h : munch0 p l = (t, r)) : l = t ++ r ∧ ∀ c ∈ t, p c := by
  have hs := munch0_sound p l
  rw [h] at hs
  exact hs

theorem matchStage2_sound {l0 time l : List Char}
    (h : matchStage2 l0 = some (time, l)) :
    ∃ w4 : List Char,
      l0 = ['['] ++ time ++ [']'] ++ w4 ++ l ∧
      (time ≠ [] ∧ ∀ c ∈ time, ¬(c = ']')) ∧ (w4 ≠ [] ∧ ∀ c ∈ w4, isSpc c) := by
  unfold matchStage2 at h
  try simp only [Option.bind_eq_some] at h
  obtain ⟨l1, h1, h⟩ := h
  try simp only [Option.bind_eq_some] at h
  obtain ⟨⟨t1, l2⟩, h2, h⟩ := h
  try simp only [Option.bind_eq_some] at h
  obtain ⟨l3, h3, h⟩ := h
  try simp only [Option.bind_eq_some] at h
  obtain ⟨⟨w4, l4⟩, h4, h⟩ := h
  simp only [Option.some.injEq, Prod.mk.injEq] at h
  obtain ⟨rfl, rfl⟩ := h
  have e1 := expectChar_sound h1
  obtain ⟨e2, n2, p2⟩ := munch1_sound h2
  have e3 := expectChar_sound h3
  obtain ⟨e4, n4, p4⟩ := munch1_sound h4
  refine ⟨w4, ?_, ⟨n2, ?_⟩, ⟨n4, p4⟩⟩
  · rw [e1, e2, e3, e4]
    simp [List.append_assoc]
  · intro c hc
    simpa using p2 c hc

theorem matchStage3_sound {l0 method path proto l : List Char}
    (h : matchStage3 l0 = some (method, path, proto, l)) :
    ∃ w5 w6 w7 : List Char,
      l0 = ['"'] ++ method ++ w5 ++ path ++ w6 ++ proto ++ ['"'] ++ w7 ++ l ∧
      (method ≠ [] ∧ ∀ c ∈ method, nonSpc c) ∧ (w5 ≠ [] ∧ ∀ c ∈ w5, isSpc c) ∧
      (path ≠ [] ∧ ∀ c ∈ path, nonSpc c) ∧ (w6 ≠ [] ∧ ∀ c ∈ w6, isSpc c) ∧
      (proto ≠ [] ∧ ∀ c ∈ proto, ¬(c = '"')) ∧ (w7 ≠ [] ∧ ∀ c ∈ w7, isSpc c) := by
  unfold matchStage3 at h
  try simp only [Option.bind_eq_some] at h
  obtain ⟨l1, h1, h⟩ := h
  try simp only [Option.bind_eq_some] at h
  obtain ⟨⟨me1, l2⟩, h2, h⟩ := h
  try simp only [Option.bind_eq_some] at h
  obtain ⟨⟨w5, l3⟩, h3, h⟩ := h
  try simp only [Option.bind_eq_some] at h
  obtain ⟨⟨pa1, l4⟩, h4, h⟩ := h
  try simp only [Option.bind_eq_some] at h
  obtain ⟨⟨w6, l5⟩, h5, h⟩ := h
  try simp only [Option.bind_eq_some] at h
  obtain ⟨⟨pr1, l6⟩, h6, h⟩ := h
  try simp only [Option.bind_eq_some] at h
  obtain ⟨l7, h7, h⟩ := h
  try simp only [Option.bind_eq_some] at h
  obtain ⟨⟨w7, l8⟩, h8, h⟩ := h
  simp only [Option.some.injEq, Prod.mk.injEq] at h
  obtain ⟨rfl, rfl, rfl, rfl⟩ := h
  have e1 := expectChar_sound h1
  obtain ⟨e2, n2, p2⟩ := munch1_sound h2
  obtain ⟨e3, n3, p3⟩ := munch1_sound h3
  obtain ⟨e4, n4, p4⟩ := munch1_sound h4
  obtain ⟨e5, n5, p5⟩ := munch1_sound h5
  obtain ⟨e6, n6, p6⟩ := munch1_sound h6
  have e7 := expectChar_sound h7
  obtain ⟨e8, n8, p8⟩ := munch1_sound h8
  refine ⟨w5, w6, w7, ?_, ⟨n2, p2⟩, ⟨n3, p3⟩, ⟨n4, p4⟩, ⟨n5, p5⟩,
    ⟨n6, ?_⟩, ⟨n8, p8⟩⟩
  · rw [e1, e2, e3, e4, e5, e6, e7, e8]
    simp [List.append_assoc]
  · intro c hc
    simpa using p6 c hc

theorem matchStage4_sound {l0 status size l : List Char}
    (h : matchStage4 l0 = some (status, size, l)) :
    ∃ w8 w9 : List Char,
      l0 = status ++ w8 ++ size ++ w9 ++ l ∧
      (status.length = 3 ∧ ∀ c ∈ status, c.isDigit) ∧
      (w8 ≠ [] ∧ ∀ c ∈ w8, isSpc c) ∧
      (size ≠ [] ∧ ∀ c ∈ size, nonSpc c) ∧ (w9 ≠ [] ∧ ∀ c ∈ w9, isSpc c) := by
  unfold matchStage4 at h
  try simp only [Option.bind_eq_some] at h
  obtain ⟨⟨st1, l1⟩, h1, h⟩ := h
  try simp only [Option.bind_eq_some] at h
  obtain ⟨⟨w8, l2⟩, h2, h⟩ := h
  try simp only [Option.bind_eq_some] at h
  obtain ⟨⟨sz1, l3⟩, h3, h⟩ := h
  try simp only [Option.bind_eq_some] at h
  obtain ⟨⟨w9, l4⟩, h4, h⟩ := h
  simp only [Option.some.injEq, Prod.mk.injEq] at h
  obtain ⟨rfl, rfl, rfl⟩ := h
  obtain ⟨e1, len1, p1⟩ := digits3_sound h1
  obtain ⟨e2, n2, p2⟩ := munch1_sound h2
  obtain ⟨e3, n3, p3⟩ := munch1_sound h3
  obtain ⟨e4, n4, p4⟩ := munch1_sound h4
  refine ⟨w8, w9, ?_, ⟨len1, p1⟩, ⟨n2, p2⟩, ⟨n3, p3⟩, ⟨n4, p4⟩⟩
  rw [e1, e2, e3, e4]
  simp [List.append_assoc]

theorem matchStage5_sound {l0 referer ua : List Char}
    (h : matchStage5 l0 = some (referer, ua)) :
    ∃ w10 wend : List Char,
      l0 = ['"'] ++ referer ++ ['"'] ++ w10 ++ ['"'] ++ ua ++ ['"'] ++ wend ∧
      (∀ c ∈ referer, ¬(c = '"')) ∧ (w10 ≠ [] ∧ ∀ c ∈ w10, isSpc c) ∧
      (∀ c ∈ ua, ¬(c = '"')) ∧ (∀ c ∈ wend, isSpc c) := by
  unfold matchStage5 at h
  try simp only [Option.bind_eq_some] at h
  obtain ⟨l1, h1, h⟩ := h
  rcases hm2 : munch0 (fun c => !(c = '"')) l1 with ⟨ref1, l2⟩
  rw [hm2] at h
  dsimp only at h
  try simp only [Option.bind_eq_some] at h
  obtain ⟨l3, h3, h⟩ := h
  try simp only [Option.bind_eq_some] at h
  obtain ⟨⟨w10, l4⟩, h4, h⟩ := h
  try simp only [Option.bind_eq_some] at h
  obtain ⟨l5, h5, h⟩ := h
  rcases hm6 : munch0 (fun c => !(c = '"')) l5 with ⟨ua1, l6⟩
  rw [hm6] at h
  dsimp only at h
  try simp only [Option.bind_eq_some] at h
  obtain ⟨l7, h7, h⟩ := h
  rcases hm8 : munch0 isSpc l7 with ⟨wend, l8⟩
  rw [hm8] at h
  dsimp only at h
  by_cases he : l8.isEmpty
  · rw [if_pos he] at h
    simp only [Option.some.injEq, Prod.mk.injEq] at h
    obtain ⟨rfl, rfl⟩ := h
    have e1 := expectChar_sound h1
    obtain ⟨e2, p2⟩ := munch0_eq hm2
    have e3 := expectChar_sound h3
    obtain ⟨e4, n4, p4⟩ := munch1_sound h4
    have e5 := expectChar_sound h5
    obtain ⟨e6, p6⟩ := munch0_eq hm6
    have e7 := expectChar_sound h7
    obtain ⟨e8, p8⟩ := munch0_eq hm8
    have e9 : l8 = [] := by simpa [List.isEmpty_iff] using he
    refine ⟨w10, wend, ?_, ?_, ⟨n4, p4⟩, ?_, p8⟩
    · rw [e1, e2, e3, e4, e5, e6, e7, e8, e9]
      simp [List.append_assoc]
    · intro c hc
      simpa using p2 c hc
    · intro c hc
      simpa using p6 c hc
  · rw [if_neg he] at h
    exact absurd h (by simp)

/-- Soundness of the matcher against the documented grammar: a successful
match decomposes the entire line. -/
theorem matchLog_sound {l0 : List Char} {m : RawMatch}
    (h : matchLog l0 = some m) : GrammarDecomp l0 m := by
  unfold matchLog at h
  try simp only [Option.bind_eq_some] at h
  obtain ⟨⟨ip, lA⟩, hA, h⟩ := h
  try simp only [Option.bind_eq_some] at h
  obtain ⟨⟨time, lB⟩, hB, h⟩ := h
  try simp only [Option.bind_eq_some] at h
  obtain ⟨⟨method, path, proto, lC⟩, hC, h⟩ := h
  try simp only [Option.bind_eq_some] at h
  obtain ⟨⟨status, size, lD⟩, hD, h⟩ := h
  try simp only [Option.bind_eq_some] at h
  obtain ⟨⟨referer, ua⟩, hE, h⟩ := h
  simp only [Option.some.injEq] at h
  subst h
  obtain ⟨w1, id1, w2, id2, w3, eA, c1, c2, c3, c4, c5, c6⟩ := matchStage1_sound hA
  obtain ⟨w4, eB, c7, c8⟩ := matchStage2_sound hB
  obtain ⟨w5, w6, w7, eC, c9, c10, c11, c12, c13, c14⟩ := matchStage3_sound hC
  obtain ⟨w8, w9, eD, c15, c16, c17, c18⟩ := matchStage4_sound hD
  obtain ⟨w10, wend, eE, c19, c20, c21, c22⟩ := matchStage5_sound hE
  refine ⟨w1, id1, w2, id2, w3, w4, w5, w6, w7, w8, w9, w10, wend, ?_,
    c1, c2, c3, c4, c5, c6, c7, c8, c9, c10, c11, c12, c13, c14, c15, c16,
    c17, c18, c19, c20, c21, c22⟩
  rw [eA, eB, eC, eD, eE]
  simp [List.append_assoc]

/-- A well-formed combined-log line used as the concrete instance for the
anchoring claim. -/
def goodLine : String :=
  "127.0.0.1 - - [10/Oct/2000:13:55:36 +0000] \"GET /path HTTP/1.1\" 200 123 \"-\" \"User-Agent\""

/-- The raw match `LOG_PATTERN` produces on `goodLine`. -/
def goodMatch : RawMatch :=
  ⟨"127.0.0.1".data, "10/Oct/2000:13:55:36 +0000".data, "GET".data,
   "/path".data, "HTTP/1.1".data, "200".data, "123".data, "-".data,
   "User-Agent".data⟩

/-- C5: matching is anchored at both ends — a line parses only if it
decomposes, in its entirety, into the grammar's tokens and delimiters
(trailing whitespace being part of the grammar's final `\s*`); extra
non-whitespace trailing characters or extra leading characters make the
line Malformed, as the concrete instances show. -/
theorem log_pattern_anchored :
    (∀ (line : String) (m : RawMatch),
      matchLog line.data = some m → GrammarDecomp line.data m) ∧
    (parse_log_line goodLine).isSome = true ∧
    parse_log_line (goodLine ++ "x") = none ∧
    parse_log_line (" " ++ goodLine) = none := by
  refine ⟨?_, by decide, by decide, by decide⟩
  intro line m h
  exact matchLog_sound h

/-- Witness for C5: the full-line grammar decomposition at `goodLine`. -/
theorem log_pattern_anchored_witness : GrammarDecomp goodLine.data goodMatch :=
  log_pattern_anchored.1 goodLine goodMatch (by decide)

/-! ## Escaping of log-derived text in the rendered document (claim C2)

Every dynamic string in the document passes through `htmlEscape`, whose
output contains no `<` character; consequently the number of `<` characters
in the whole document — the characters that open the document's parseable
markup — is a function of the input shape (row and sample counts) alone,
independent of any string content from the log.  Together with a concrete
adversarial run this formalises that raw injected markup never reaches the
document's markup, appearing only in escaped form. -/

/-- Number of markup-opening `<` characters in a string. -/
def countLt (s : String) : Nat := s.data.count '<'

/-- Substring test (used to check for injected markup in a rendered
document). -/
def hasSub (pat s : List Char) : Bool :=
  (List.range (s.length + 1)).any (fun i => pat.isPrefixOf (s.drop i))

theorem countLt_append (a b : String) : countLt (a ++ b) = countLt a + countLt b := by
  simp [countLt, String.data_append, List.count_append]

theorem countLt_escapeChar (c : Char) : countLt (escapeChar c) = 0 := by
  unfold escapeChar
  split_ifs with h1 h2 h3 h4 h5
  · rfl
  · rfl
  · rfl
  · rfl
  · rfl
  · simp [countLt, String.singleton, List.count_cons, h2]

theorem countLt_htmlEscape (s : String) : countLt (htmlEscape s) = 0 := by
  unfold htmlEscape
  induction s.data with
  | nil => rfl
  | cons c cs ih => simp [concatMapStr, countLt_append, countLt_escapeChar, ih]

theorem countLt_tr (cells : List String) : countLt (tr cells) = 2 + 2 * cells.length := by
  unfold tr
  rw [countLt_append, countLt_append]
  have hc : ∀ cs : List String,
      countLt (concatMapStr (fun c => "<td>" ++ htmlEscape c ++ "</td>") cs) =
        2 * cs.length := by
    intro cs
    induction cs with
    | nil => rfl
    | cons x xs ih =>
        simp only [concatMapStr, countLt_append, countLt_htmlEscape, ih,
          List.length_cons]
        have h1 : countLt "<td>" = 1 := by decide
        have h2 : countLt "</td>" = 1 := by decide
        omega
  rw [hc]
  have h1 : countLt "<tr>" = 1 := by decide
  have h2 : countLt "</tr>" = 1 := by decide
  omega

theorem countLt_joinLines {α : Type} (f : α → String) (k : Nat)
    (hf : ∀ a, countLt (f a) = k) : ∀ l : List α,
    countLt (joinLines (l.map f)) = k * l.length
  | [] => by rfl
  | [x] => by
      simp [joinLines, hf]
  | x :: y :: ys => by
      have ih := countLt_joinLines f k hf (y :: ys)
      simp only [List.map_cons] at ih ⊢
      simp only [joinLines, countLt_append, hf, ih]
      have hn : countLt "\n" = 0 := by decide
      rw [hn]
      simp only [List.length_cons]
      ring

theorem countLt_rowsOrDefault {α : Type} (g : α → String)
    (hg : ∀ a, countLt (g a) = 6) (l : List α) :
    countLt (rowsOrDefault (l.map g)) =
      6 * (if l.length = 0 then 1 else l.length) := by
  unfold rowsOrDefault
  cases l with
  | nil =>
      rw [List.map_nil, if_pos (by rfl)]
      rw [countLt_tr]
      rfl
  | cons x xs =>
      rw [if_neg (by simp)]
      have hj := countLt_joinLines g 6 hg (x :: xs)
      rw [hj, if_neg (by simp)]

theorem length_sortAsc (l : List (Int × Nat)) : (sortAsc l).length = l.length := by
  have hins : ∀ (x : Int × Nat) (t : List (Int × Nat)),
      (insertAsc x t).length = t.length + 1 := by
    intro x t
    induction t with
    | nil => rfl
    | cons y ys ih =>
        unfold insertAsc
        by_cases h : x.1 ≤ y.1 <;> simp [h, ih]
  induction l with
  | nil => rfl
  | cons y ys ih =>
      simp only [sortAsc, List.foldr_cons] at ih ⊢
      rw [hins, ih, List.length_cons]

theorem countLt_errorsHtml (errs : List String) :
    countLt (errorsHtml errs) =
      if errs.length = 0 then 2 else 2 + 4 * min 20 errs.length := by
  unfold errorsHtml
  cases errs with
  | nil => decide
  | cons e es =>
      rw [if_neg (by simp)]
      rw [countLt_append, countLt_append]
      have hitem : ∀ x : String,
          countLt ("<li><code>" ++ htmlEscape x ++ "</code></li>") = 4 := by
        intro x
        rw [countLt_append, countLt_append, countLt_htmlEscape]
        have ha : countLt "<li><code>" = 2 := by decide
        have hb : countLt "</code></li>" = 2 := by decide
        omega
      have := countLt_joinLines (fun x => "<li><code>" ++ htmlEscape x ++ "</code></li>")
        4 hitem ((e :: es).take 20)
      have hul : countLt "<ul>" = 1 := by decide
      have hul2 : countLt "</ul>" = 1 := by decide
      rw [this, hul, hul2, List.length_take, if_neg (by simp)]
      omega

/-- The `<`-count of a rendered report as a function of the input shape
alone: number of top-IP rows, top-UA rows, status rows, and malformed
sample entries.  `89` is the count contributed by the fixed template and
the four summary rows. -/
def reportLtShape (nIps nUas nSc nErr : Nat) : Nat :=
  89 + 6 * (if nIps = 0 then 1 else nIps) + 6 * (if nUas = 0 then 1 else nUas) +
    6 * (if nSc = 0 then 1 else nSc) +
    (if nErr = 0 then 2 else 2 + 4 * min 20 nErr)

set_option maxRecDepth 8000 in
theorem countLt_make_html_report (title now : String) (summary : Summary)
    (tips tuas : List (String × Nat)) (sc : List (Int × Nat))
    (errs : List String) :
    countLt (make_html_report title now summary tips tuas sc errs) =
      reportLtShape tips.length tuas.length sc.length errs.length := by
  unfold make_html_report
  simp only [countLt_append, countLt_htmlEscape, countLt_tr, countLt_errorsHtml]
  rw [countLt_rowsOrDefault (fun p => tr [p.1, Nat.repr p.2])
        (fun p => by rw [countLt_tr]; rfl) tips,
      countLt_rowsOrDefault (fun p => tr [p.1, Nat.repr p.2])
        (fun p => by rw [countLt_tr]; rfl) tuas,
      countLt_rowsOrDefault (fun p => tr [Int.repr p.1, Nat.repr p.2])
        (fun p => by rw [countLt_tr]; rfl) (sortAsc sc)]
  rw [length_sortAsc]
  have e1 : countLt htmlHead1 = 6 := by decide
  have e2 : countLt htmlHead2 = 6 := by decide
  have e3 : countLt htmlPart3 = 2 := by decide
  have e4 : countLt htmlPart4 = 10 := by decide
  have e5 : countLt htmlPart5 = 12 := by decide
  have e6 : countLt htmlPart6 = 12 := by decide
  have e7 : countLt htmlPart7 = 12 := by decide
  have e8 : countLt htmlPart8 = 3 := by decide
  have e9 : countLt htmlPart9 = 2 := by decide
  have en : countLt "\n    " = 0 := by decide
  rw [e1, e2, e3, e4, e5, e6, e7, e8, e9, en]
  unfold reportLtShape
  simp only [List.length_cons, List.length_nil]
  split_ifs <;> omega

/-- The adversarial log line of the escaping property: its user-agent field
carries literal HTML markup. -/
def advLine : String :=
  "9.9.9.9 - - [t] \"GET /x HTTP/1.1\" 200 7 \"-\" \"<script>alert(1)</script>\""

set_option maxRecDepth 100000 in
set_option maxHeartbeats 1000000 in
/-- C2: log-derived strings appear in the document only in escaped form.
Formally: (a) escaping removes every markup-opening `<`; (b) the number of
`<` characters in the whole rendered document is a function of the shape of
the aggregates alone, never of any string content, so no log-derived string
can contribute to the document's parseable markup; and (c) concretely, the
pipeline parses a log line whose user-agent field carries `<script>`
markup, the table row rendered for that user agent contains the escaped
form and not the raw markup, and the full document rendered from that run
has exactly the `<`-count that the shape function prescribes for its
one-row tables (so the injected markup opened no tag anywhere in it). -/
theorem make_html_report_escaping :
    (∀ s : String, countLt (htmlEscape s) = 0) ∧
    (∀ (title now : String) (summary : Summary)
       (tips tuas : List (String × Nat)) (sc : List (Int × Nat))
       (errs : List String),
      countLt (make_html_report title now summary tips tuas sc errs) =
        reportLtShape tips.length tuas.length sc.length errs.length) ∧
    (parse_log_line advLine).map LogRecord.ua =
      some "<script>alert(1)</script>" ∧
    hasSub "<script>".data
      (tr ["<script>alert(1)</script>", Nat.repr 1]).data = false ∧
    hasSub "&lt;script&gt;".data
      (tr ["<script>alert(1)</script>", Nat.repr 1]).data = true ∧
    countLt (runPipeline [advLine] 10 0 "access.log" "2024-01-01 00:00:00") =
      reportLtShape 1 1 1 0 := by
  refine ⟨countLt_htmlEscape, countLt_make_html_report, by decide, by decide,
    by decide, ?_⟩
  unfold runPipeline
  rw [countLt_make_html_report]
  decide

end LogParser
